import Mathlib

/-!
Verification of the pg_trace repository (src/ebpf/pg_trace_orchestrate.py and
src/ebpf/pg_trace_waits.py) against its natural-language specification.

The two Python files are shallowly embedded below:
* file contents are modelled as `Option String` (`none` = the file does not
  exist, `some s` = the file exists and its text-mode content reads as `s`);
  the scripts open files in Python text mode, so contents are modelled as the
  decoded text stream;
* the BPF hash maps `wait_starts` and `pid_to_cursor` are modelled as
  association lists with at most one live entry per key (hash-map semantics:
  `update` overwrites in place, `delete` removes the entry);
* u64 arithmetic of the BPF program (`end_ts - *start_ts`) is modelled as
  subtraction modulo 2^64 on `Nat`;
* the in-kernel probe handlers `trace_wait_start` / `trace_wait_end` become
  pure state-passing functions; the clock reads (`bpf_ktime_get_ns`) and the
  pid/tid extracted from `bpf_get_current_pid_tgid` become explicit arguments;
* the user-space formatter `print_wait_event` becomes a function returning the
  printed line, with the wall-clock timestamp string (captured by
  `datetime.now()` at decode time) as an explicit argument.
-/

namespace PgTrace

/-! ## Association-list model of the BPF hash maps -/

/-- Lookup in an association list: the BPF `map.lookup(&k)`. -/
def alistLookup {α : Type} : List (Nat × α) → Nat → Option α
  | [], _ => none
  | (k', v) :: rest, k => if k = k' then some v else alistLookup rest k

/-- Overwriting insert: the BPF `map.update(&k, &v)`. Replaces the entry for
`k` in place when present, otherwise appends a fresh entry. -/
def alistUpdate {α : Type} : List (Nat × α) → Nat → α → List (Nat × α)
  | [], k, v => [(k, v)]
  | (k', v') :: rest, k, v =>
      if k = k' then (k, v) :: rest else (k', v') :: alistUpdate rest k v

/-- Deletion: the BPF `map.delete(&k)`. Removes the entry for `k` (hash-map
keys are unique; on a list carrying duplicates of `k` this removes them all). -/
def alistDelete {α : Type} : List (Nat × α) → Nat → List (Nat × α)
  | [], _ => []
  | (k', v') :: rest, k =>
      if k = k' then alistDelete rest k else (k', v') :: alistDelete rest k

/-- Number of entries held for a key; a well-formed hash map has at most one. -/
def alistCountKey {α : Type} : List (Nat × α) → Nat → Nat
  | [], _ => 0
  | (k', _) :: rest, k => (if k = k' then 1 else 0) + alistCountKey rest k

/-! ## Trace Merge Engine: `merge_traces` of src/ebpf/pg_trace_orchestrate.py -/

/-- A line of 70 `'='` characters: `"="*70` in the source. -/
def eqLine : String := String.mk (List.replicate 70 '=')

/-- Function `merge_traces(extension_file, wait_file, output_file)`, lines
38-56 of src/ebpf/pg_trace_orchestrate.py, as a function from the contents of
the two input files to the content written to the output file.  The source writes the
extension trace verbatim when that file exists, and, only when the wait file
exists, writes `"\n" + "="*70 + "\n"`, then `"WAIT EVENTS (from eBPF)\n"`,
then `"="*70 + "\n\n"`, then the content of the wait file verbatim. -/
def merge_traces (extension_file wait_file : Option String) : String :=
  (match extension_file with
   | some ef => ef
   | none => "") ++
  (match wait_file with
   | some wf =>
       "\n" ++ eqLine ++ "\n" ++ "WAIT EVENTS (from eBPF)\n" ++ eqLine ++ "\n\n" ++ wf
   | none => "")

/-- The delimiter block exactly as the specification describes it: a line of
70 `'='` characters, the line `WAIT EVENTS (from eBPF)`, another line of 70
`'='` characters, and a blank line — with no leading newline.  This definition
follows the wording of the spec, for comparison with `merge_traces` above. -/
def specDelimiterBlock : String :=
  eqLine ++ "\n" ++ "WAIT EVENTS (from eBPF)\n" ++ eqLine ++ "\n" ++ "\n"

/-! ## Session Orchestrator start-up: `main` of pg_trace_orchestrate.py -/

/-- Semantics of `args.output or default` in Python: `None` and the empty string are falsy. -/
def pyOrDefault (o : Option String) (dflt : String) : String :=
  match o with
  | none => dflt
  | some s => if s = "" then dflt else s

/-- The transient wait-log path, line 76 of src/ebpf/pg_trace_orchestrate.py:
`f"/tmp/pg_trace_waits_{args.pid}.log"`. -/
def wait_log_path (pid : Nat) : String :=
  "/tmp/pg_trace_waits_" ++ toString pid ++ ".log"

/-- The start-up phase of `main`, lines 70-76 of
src/ebpf/pg_trace_orchestrate.py: if the SQL trace file does not exist the
process prints an error and calls `sys.exit(1)` (modelled as
`Except.error 1`, the exit code); otherwise the output path is
`args.output or f"{args.trace_file}.complete"` and the wait-log path is
computed from the pid. -/
def orchestrate_init (trace_file_exists : Bool) (trace_file : String)
    (output : Option String) (pid : Nat) : Except Nat (String × String) :=
  if !trace_file_exists then
    Except.error 1
  else
    Except.ok (pyOrDefault output (trace_file ++ ".complete"), wait_log_path pid)

/-! ## Wait Timer: the BPF program embedded in src/ebpf/pg_trace_waits.py -/

/-- The modulus of the u64 arithmetic in the BPF program. -/
def U64MOD : Nat := 2 ^ 64

/-- u64 subtraction `a - b` (wrapping), as computed on
`u64 duration_ns = end_ts - *start_ts;`. -/
def u64sub (a b : Nat) : Nat :=
  (U64MOD + a % U64MOD - b % U64MOD) % U64MOD

/-- The shared state of the BPF program: the two hash maps
`BPF_HASH(wait_starts, u32, u64)` (tid → start timestamp) and
`BPF_HASH(pid_to_cursor, u32, u64)` (pid → cursor id, populated externally by
the extension). -/
structure BpfState where
  wait_starts : List (Nat × Nat)
  pid_to_cursor : List (Nat × Nat)
deriving Repr, DecidableEq

/-- The record submitted through the perf buffer, `struct wait_event_t` of the
BPF program (equivalently the ctypes `WaitEvent` structure): fields in source
order; the 64-byte `wait_name` char buffer is modelled as a list of bytes. -/
structure WaitEventT where
  timestamp_ns : Nat
  pid : Nat
  tid : Nat
  cursor_id : Nat
  wait_event_info : Nat
  duration_ns : Nat
  wait_name : List Nat
deriving Repr, DecidableEq

/-- Handler `trace_wait_start(ctx, u32 wait_event_info)`, lines 50-59 of the BPF
program in src/ebpf/pg_trace_waits.py: store the current timestamp under the
current tid (`wait_starts.update(&tid, &ts)`).  The `wait_event_info`
argument is accepted but never read by the handler body. -/
def trace_wait_start (st : BpfState) (tid : Nat) (wait_event_info : Nat)
    (ts : Nat) : BpfState :=
  { st with wait_starts := alistUpdate st.wait_starts tid ts }

/-- Handler `trace_wait_end(ctx)`, lines 62-97 of the BPF program in
src/ebpf/pg_trace_waits.py: look up the start time for the current tid
(absent → return, no event); compute `duration_ns = end_ts - *start_ts`;
suppress when `duration_ns < 1000` but still delete the entry; otherwise
zero-initialise a `wait_event_t`, fill `timestamp_ns`, `pid`, `tid`,
`duration_ns`, set `cursor_id` from `pid_to_cursor` when an entry exists
(zero otherwise), submit it, and delete the `wait_starts` entry.  Returns the
updated state and the submitted event, if any. -/
def trace_wait_end (st : BpfState) (pid tid : Nat) (end_ts : Nat) :
    BpfState × Option WaitEventT :=
  match alistLookup st.wait_starts tid with
  | none => (st, none)
  | some start_ts =>
      let duration_ns := u64sub end_ts start_ts
      if duration_ns < 1000 then
        ({ st with wait_starts := alistDelete st.wait_starts tid }, none)
      else
        let event : WaitEventT :=
          { timestamp_ns := end_ts
            pid := pid
            tid := tid
            cursor_id := (alistLookup st.pid_to_cursor pid).getD 0
            wait_event_info := 0
            duration_ns := duration_ns
            wait_name := List.replicate 64 0 }
        ({ st with wait_starts := alistDelete st.wait_starts tid }, some event)

/-! ## Decoder/Formatter of src/ebpf/pg_trace_waits.py -/

/-- Table `WAIT_EVENT_NAMES`, lines 115-131 of src/ebpf/pg_trace_waits.py. -/
def WAIT_EVENT_NAMES : List (Nat × String) :=
  [ (0x01000001, "LockManager"),
    (0x02000001, "BufferPin"),
    (0x03000001, "ActivityMain"),
    (0x03000002, "ActivityAutovacuum"),
    (0x04000001, "ClientRead"),
    (0x04000002, "ClientWrite"),
    (0x05000001, "DataFileRead"),
    (0x05000002, "DataFileWrite"),
    (0x05000003, "DataFileExtend"),
    (0x05000004, "DataFileFlush"),
    (0x05000005, "DataFileSync"),
    (0x05000006, "WALWrite"),
    (0x05000007, "WALSync"),
    (0x06000001, "MessageQueueSend"),
    (0x06000002, "MessageQueueReceive") ]

/-- One lowercase hexadecimal digit character, as Python renders it. -/
def hexDigitChar (n : Nat) : Char :=
  if n < 10 then Char.ofNat (48 + n) else Char.ofNat (87 + n)

/-- Most-significant-first hexadecimal digits of `n`, empty for `n = 0`;
`fuel ≥ n` suffices for the recursion to complete. -/
def hexDigits (fuel n : Nat) : List Char :=
  match fuel with
  | 0 => []
  | fuel + 1 =>
      if n = 0 then [] else hexDigits fuel (n / 16) ++ [hexDigitChar (n % 16)]

/-- The variable-length lowercase hex rendering of Python, `f"{n:x}"`. -/
def pyHex (n : Nat) : List Char :=
  if n = 0 then ['0'] else hexDigits n n

/-- The Python rendering `f"{n:08x}"`: the lowercase hex digits of `n`, left-padded with
`'0'` to a minimum width of 8. -/
def format08x (n : Nat) : String :=
  String.mk (List.replicate (8 - (pyHex n).length) '0' ++ pyHex n)

/-- Function `get_wait_event_name(wait_event_info)`, lines 133-135 of
src/ebpf/pg_trace_waits.py: look the code up in `WAIT_EVENT_NAMES`, falling
back to `Unknown:0x` followed by the code rendered as `{:08x}`. -/
def get_wait_event_name (wait_event_info : Nat) : String :=
  (alistLookup WAIT_EVENT_NAMES wait_event_info).getD
    ("Unknown:0x" ++ format08x wait_event_info)

/-- The Python rendering `f"{duration_ns / 1000:.0f}"` as a natural number: the quotient
rendered with zero decimal places, which rounds half to even.  (The source
divides in double precision before formatting; this model rounds the exact
quotient, which coincides with the source whenever the quotient is faithfully
represented in double precision, in particular for all durations below 2^52
nanoseconds, about 52 days.) -/
def formatDurationUs (duration_ns : Nat) : Nat :=
  let q := duration_ns / 1000
  let r := duration_ns % 1000
  if r > 500 then q + 1
  else if r < 500 then q
  else if q % 2 = 0 then q else q + 1

/-- Function `print_wait_event`, lines 137-151 of src/ebpf/pg_trace_waits.py, as the
line it prints: `timestamp` is the wall-clock string captured at decode time
(`datetime.now().strftime(...)`), passed explicitly. -/
def print_wait_event (event : WaitEventT) (timestamp : String) : String :=
  let wait_name := get_wait_event_name event.wait_event_info
  let ela := formatDurationUs event.duration_ns
  if event.cursor_id > 0 then
    "WAIT #" ++ toString event.cursor_id ++ ": nam='" ++ wait_name ++
      "' ela=" ++ toString ela ++ " us tim=" ++ timestamp
  else
    "WAIT [PID " ++ toString event.pid ++ "]: nam='" ++ wait_name ++
      "' ela=" ++ toString ela ++ " us tim=" ++ timestamp

/-! ## Helper lemmas about the hash-map model -/

theorem alistLookup_update_self {α : Type} (m : List (Nat × α)) (k : Nat) (v : α) :
    alistLookup (alistUpdate m k v) k = some v := by
  induction m with
  | nil => simp [alistUpdate, alistLookup]
  | cons hd tl ih =>
      by_cases h : k = hd.1
      · simp [alistUpdate, alistLookup, h]
      · simp [alistUpdate, alistLookup, h, ih]

theorem alistUpdate_update_self {α : Type} (m : List (Nat × α)) (k : Nat) (v1 v2 : α) :
    alistUpdate (alistUpdate m k v1) k v2 = alistUpdate m k v2 := by
  induction m with
  | nil => simp [alistUpdate]
  | cons hd tl ih =>
      by_cases h : k = hd.1
      · simp [alistUpdate, h]
      · simp [alistUpdate, h, ih]

theorem alistLookup_delete_self {α : Type} (m : List (Nat × α)) (k : Nat) :
    alistLookup (alistDelete m k) k = none := by
  induction m with
  | nil => simp [alistDelete, alistLookup]
  | cons hd tl ih =>
      obtain ⟨k', v'⟩ := hd
      by_cases h : k = k'
      · subst h
        simp [alistDelete, ih]
      · simp [alistDelete, alistLookup, h, ih]

theorem alistCountKey_update_ne {α : Type} (m : List (Nat × α)) (k j : Nat) (v : α)
    (h : j ≠ k) : alistCountKey (alistUpdate m k v) j = alistCountKey m j := by
  induction m with
  | nil => simp [alistUpdate, alistCountKey, h]
  | cons hd tl ih =>
      obtain ⟨k', v'⟩ := hd
      by_cases hk : k = k'
      · subst hk
        simp [alistUpdate, alistCountKey]
      · simp [alistUpdate, alistCountKey, hk, ih]

theorem alistCountKey_update_le {α : Type} (m : List (Nat × α)) (k j : Nat) (v : α)
    (h : ∀ i, alistCountKey m i ≤ 1) : alistCountKey (alistUpdate m k v) j ≤ 1 := by
  induction m generalizing j with
  | nil =>
      simp only [alistUpdate, alistCountKey]
      split <;> omega
  | cons hd tl ih =>
      obtain ⟨k', v'⟩ := hd
      by_cases hk : k = k'
      · subst hk
        have hthis := h j
        simp only [alistCountKey] at hthis
        simp only [alistUpdate, if_pos rfl, alistCountKey]
        omega
      · have htl : ∀ i, alistCountKey tl i ≤ 1 := by
          intro i
          have := h i
          simp only [alistCountKey] at this
          omega
        by_cases hj : j = k'
        · have hone := h j
          simp only [alistCountKey, if_pos hj] at hone
          have hne : j ≠ k := by omega
          simp only [alistUpdate, if_neg hk, alistCountKey, if_pos hj,
            alistCountKey_update_ne tl k j v hne]
          omega
        · have := ih j htl
          simp only [alistUpdate, if_neg hk, alistCountKey, if_neg hj]
          omega

theorem alistCountKey_delete_le {α : Type} (m : List (Nat × α)) (k j : Nat) :
    alistCountKey (alistDelete m k) j ≤ alistCountKey m j := by
  induction m with
  | nil => simp [alistDelete]
  | cons hd tl ih =>
      obtain ⟨k', v'⟩ := hd
      by_cases hk : k = k'
      · simp only [alistDelete, if_pos hk, alistCountKey]
        split <;> omega
      · simp only [alistDelete, if_neg hk, alistCountKey]
        omega

/-- Characterisation of an emission: if `trace_wait_end` submits an event,
there was a pending start for the tid, the duration cleared the noise floor,
and the event is exactly the record the handler builds. -/
theorem trace_wait_end_emit (st : BpfState) (pid tid end_ts : Nat) (e : WaitEventT)
    (h : (trace_wait_end st pid tid end_ts).2 = some e) :
    ∃ start_ts, alistLookup st.wait_starts tid = some start_ts ∧
      1000 ≤ u64sub end_ts start_ts ∧
      e = ⟨end_ts, pid, tid, (alistLookup st.pid_to_cursor pid).getD 0, 0,
        u64sub end_ts start_ts, List.replicate 64 0⟩ := by
  unfold trace_wait_end at h
  cases hl : alistLookup st.wait_starts tid with
  | none => rw [hl] at h; simp at h
  | some start_ts =>
      rw [hl] at h
      by_cases hd : u64sub end_ts start_ts < 1000
      · simp [hd] at h
      · refine ⟨start_ts, rfl, Nat.le_of_not_lt hd, ?_⟩
        simp [hd] at h
        exact h.symm

/-- The state after `trace_wait_end`: the cursor table is never written, and
the pending entry for the tid is gone whenever one was present. -/
theorem trace_wait_end_state (st : BpfState) (pid tid end_ts : Nat) :
    (trace_wait_end st pid tid end_ts).1.pid_to_cursor = st.pid_to_cursor ∧
      (alistLookup st.wait_starts tid ≠ none →
        (trace_wait_end st pid tid end_ts).1.wait_starts =
          alistDelete st.wait_starts tid) := by
  unfold trace_wait_end
  cases hl : alistLookup st.wait_starts tid with
  | none => simp
  | some start_ts =>
      by_cases hd : u64sub end_ts start_ts < 1000 <;> simp [hd]

/-! ## Hexadecimal rendering lemmas -/

theorem hexDigits_length_le :
    ∀ fuel n k : Nat, n ≤ fuel → n < 16 ^ k → (hexDigits fuel n).length ≤ k := by
  intro fuel
  induction fuel with
  | zero => intro n k _ _; simp [hexDigits]
  | succ f ih =>
      intro n k hn hk
      by_cases h0 : n = 0
      · simp [hexDigits, h0]
      · have hk1 : 1 ≤ k := by
          rcases Nat.eq_zero_or_pos k with hz | hp
          · rw [hz] at hk
            simp at hk
            omega
          · exact hp
        have hdiv : n / 16 < 16 ^ (k - 1) := by
          rw [Nat.div_lt_iff_lt_mul (by norm_num)]
          calc n < 16 ^ k := hk
            _ = 16 ^ (k - 1) * 16 := by
                rw [← pow_succ]
                congr 1
                omega
        have hfn : n / 16 ≤ f := by
          have h1 : n / 16 < n := Nat.div_lt_self (by omega) (by norm_num)
          omega
        have hlen := ih (n / 16) (k - 1) hfn hdiv
        simp only [hexDigits, if_neg h0, List.length_append, List.length_cons,
          List.length_nil]
        omega

/-- For every code below 2^32, the `{:x}` rendering has at most 8
digits. -/
theorem pyHex_length_le (n : Nat) (h : n < 2 ^ 32) : (pyHex n).length ≤ 8 := by
  by_cases h0 : n = 0
  · simp [pyHex, h0]
  · have : n < 16 ^ 8 := by norm_num at h ⊢; omega
    simpa [pyHex, h0] using hexDigits_length_le n n 8 (Nat.le_refl n) this

/-- For every code below 2^32, the `{:08x}` rendering is exactly 8
characters long. -/
theorem format08x_length (n : Nat) (h : n < 2 ^ 32) :
    (format08x n).length = 8 := by
  have hle := pyHex_length_le n h
  simp only [format08x, String.length, String.mk, List.length_append,
    List.length_replicate]
  omega

theorem hexDigitChar_mem_hex (m : Nat) (h : m < 16) :
    hexDigitChar m ∈ "0123456789abcdef".data := by
  interval_cases m <;> decide

theorem hexDigits_chars :
    ∀ fuel n : Nat, ∀ c ∈ hexDigits fuel n, c ∈ "0123456789abcdef".data := by
  intro fuel
  induction fuel with
  | zero => intro n c hc; simp [hexDigits] at hc
  | succ f ih =>
      intro n c hc
      by_cases h0 : n = 0
      · simp [hexDigits, h0] at hc
      · simp only [hexDigits, if_neg h0, List.mem_append, List.mem_singleton] at hc
        rcases hc with hc | hc
        · exact ih (n / 16) c hc
        · rw [hc]
          exact hexDigitChar_mem_hex (n % 16) (Nat.mod_lt n (by norm_num))

/-- Every character of the `{:08x}` rendering is a lowercase hex digit. -/
theorem format08x_chars (n : Nat) :
    ∀ c ∈ (format08x n).data, c ∈ "0123456789abcdef".data := by
  intro c hc
  simp only [format08x, String.mk, List.mem_append, List.mem_replicate] at hc
  rcases hc with ⟨-, hc⟩ | hc
  · rw [hc]; decide
  · by_cases h0 : n = 0
    · simp [pyHex, h0] at hc
      rw [hc]; decide
    · simp only [pyHex, if_neg h0] at hc
      exact hexDigits_chars n n c hc

/-! ## Theorems for the merge and orchestrator claims -/

/-- C1 counterexample: with both input files existing and empty, the output is
not `content(A) ++ specDelimiterBlock ++ content(B)` — the code inserts one
extra newline byte before the first `'='` line. -/
theorem merge_traces_not_spec_delimiter :
    merge_traces (some "") (some "") ≠ "" ++ specDelimiterBlock ++ "" := by
  decide

/-- C1 (amended): for every pair of existing input files A and B, including
empty ones, the merge output is exactly content(A), then one newline, then the
delimiter block (a line of 70 `'='`, the line `WAIT EVENTS (from eBPF)`,
another line of 70 `'='`, and a blank line), then content(B). -/
theorem merge_traces_both_present (a b : String) :
    merge_traces (some a) (some b) = a ++ ("\n" ++ specDelimiterBlock) ++ b := by
  simp [merge_traces, specDelimiterBlock, String.append_assoc]

/-- C2 counterexample: with the SQL trace present with content `"X"` and the
wait-log absent, the output is exactly `"X"` — the delimiter block is not
written at all, contradicting the claim that the output is
`"X" ++ delimiter block`. -/
theorem merge_traces_wait_absent_no_delimiter :
    merge_traces (some "X") none = "X" ∧
      merge_traces (some "X") none ≠ "X" ++ specDelimiterBlock := by
  constructor
  · rfl
  · decide

/-- C2 (amended): when the SQL trace file exists with content s and the
wait-log file does not exist, merge produces exactly s: the delimiter block
and the wait section are omitted entirely, and the absence of the wait-log
file is not an error (the merge still produces its output). -/
theorem merge_traces_wait_absent (s : String) :
    merge_traces (some s) none = s := by
  simp [merge_traces]

/-- C3: `trace_wait_start` discards its `wait_event_info` argument, every
event submitted by `trace_wait_end` carries `wait_event_info = 0`, and that
field renders as `Unknown:0x00000000` (code 0 is not in the static name
table). -/
theorem wait_info_always_zero (st : BpfState) (tid info ts pid tid' end_ts : Nat)
    (e : WaitEventT) (h : (trace_wait_end st pid tid' end_ts).2 = some e) :
    trace_wait_start st tid info ts = trace_wait_start st tid 0 ts ∧
      e.wait_event_info = 0 ∧
      get_wait_event_name e.wait_event_info = "Unknown:0x00000000" := by
  obtain ⟨start_ts, -, -, he⟩ := trace_wait_end_emit st pid tid' end_ts e h
  refine ⟨rfl, by rw [he], ?_⟩
  rw [he]
  show get_wait_event_name 0 = "Unknown:0x00000000"
  decide

/-- Witness for C3 at a concrete run: a 5000 ns wait on tid 5 of pid 100. -/
theorem wait_info_always_zero_witness :
    (trace_wait_end ⟨[(5, 0)], []⟩ 100 5 5000).2 =
        some ⟨5000, 100, 5, 0, 0, 5000, List.replicate 64 0⟩ ∧
      trace_wait_start ⟨[(5, 0)], []⟩ 7 123 10 = trace_wait_start ⟨[(5, 0)], []⟩ 7 0 10 ∧
      (⟨5000, 100, 5, 0, 0, 5000, List.replicate 64 0⟩ : WaitEventT).wait_event_info = 0 ∧
      get_wait_event_name
          (⟨5000, 100, 5, 0, 0, 5000, List.replicate 64 0⟩ : WaitEventT).wait_event_info =
        "Unknown:0x00000000" :=
  ⟨by decide,
    wait_info_always_zero ⟨[(5, 0)], []⟩ 7 123 10 100 5 5000
      ⟨5000, 100, 5, 0, 0, 5000, List.replicate 64 0⟩ (by decide)⟩

/-- C4: a wait-end whose duration is below 1000 ns submits no event but still
deletes the pending entry, and a subsequent wait-start/wait-end pair on the
same tid submits exactly what it would have submitted had the suppressed wait
never happened. -/
theorem short_wait_suppressed (st : BpfState) (pid tid end_ts start_ts : Nat)
    (hs : alistLookup st.wait_starts tid = some start_ts)
    (hd : u64sub end_ts start_ts < 1000) :
    (trace_wait_end st pid tid end_ts).2 = none ∧
      alistLookup (trace_wait_end st pid tid end_ts).1.wait_starts tid = none ∧
      ∀ info ts2 ts3,
        (trace_wait_end
            (trace_wait_start (trace_wait_end st pid tid end_ts).1 tid info ts2)
            pid tid ts3).2 =
          (trace_wait_end (trace_wait_start st tid info ts2) pid tid ts3).2 := by
  have hstep : trace_wait_end st pid tid end_ts =
      ({ st with wait_starts := alistDelete st.wait_starts tid }, none) := by
    unfold trace_wait_end
    rw [hs]
    simp [hd]
  refine ⟨by rw [hstep], ?_, ?_⟩
  · rw [hstep]
    exact alistLookup_delete_self st.wait_starts tid
  · intro info ts2 ts3
    rw [hstep]
    unfold trace_wait_end trace_wait_start
    simp only [alistLookup_update_self]
    by_cases hc : u64sub ts3 ts2 < 1000 <;> simp [hc]

/-- Witness for C4: a 500 ns wait on tid 5 is suppressed, then a later pair on
tid 5 behaves as if it never happened. -/
theorem short_wait_suppressed_witness :
    alistLookup ([(5, 100)] : List (Nat × Nat)) 5 = some 100 ∧
      u64sub 600 100 < 1000 ∧
      (trace_wait_end ⟨[(5, 100)], []⟩ 9 5 600).2 = none ∧
      alistLookup (trace_wait_end ⟨[(5, 100)], []⟩ 9 5 600).1.wait_starts 5 = none ∧
      (trace_wait_end
          (trace_wait_start (trace_wait_end ⟨[(5, 100)], []⟩ 9 5 600).1 5 0 700)
          9 5 9999).2 =
        (trace_wait_end (trace_wait_start ⟨[(5, 100)], []⟩ 5 0 700) 9 5 9999).2 := by
  obtain ⟨h1, h2, h3⟩ :=
    short_wait_suppressed ⟨[(5, 100)], []⟩ 9 5 600 100 (by decide) (by decide)
  exact ⟨by decide, by decide, h1, h2, h3 0 700 9999⟩

/-- C5: every submitted event resolves `cursor_id` through the `pid_to_cursor`
table (0 when absent), an empty table yields `cursor_id = 0`, and neither
probe handler ever writes to the table. -/
theorem cursor_id_resolution (st : BpfState) (pid tid end_ts : Nat)
    (e : WaitEventT) (h : (trace_wait_end st pid tid end_ts).2 = some e) :
    e.cursor_id = (alistLookup st.pid_to_cursor pid).getD 0 ∧
      (st.pid_to_cursor = [] → e.cursor_id = 0) ∧
      (trace_wait_end st pid tid end_ts).1.pid_to_cursor = st.pid_to_cursor ∧
      ∀ tid' info ts,
        (trace_wait_start st tid' info ts).pid_to_cursor = st.pid_to_cursor := by
  obtain ⟨start_ts, -, -, he⟩ := trace_wait_end_emit st pid tid end_ts e h
  refine ⟨by rw [he], ?_, (trace_wait_end_state st pid tid end_ts).1,
    fun tid' info ts => rfl⟩
  intro hempty
  rw [he]
  simp [hempty, alistLookup]

/-- Witness for C5: with `pid_to_cursor = [(100, 42)]` the submitted event
carries cursor 42, and the table is untouched by both handlers. -/
theorem cursor_id_resolution_witness :
    (trace_wait_end ⟨[(5, 0)], [(100, 42)]⟩ 100 5 5000).2 =
        some ⟨5000, 100, 5, 42, 0, 5000, List.replicate 64 0⟩ ∧
      (⟨5000, 100, 5, 42, 0, 5000, List.replicate 64 0⟩ : WaitEventT).cursor_id =
        (alistLookup ([(100, 42)] : List (Nat × Nat)) 100).getD 0 ∧
      (trace_wait_end ⟨[(5, 0)], [(100, 42)]⟩ 100 5 5000).1.pid_to_cursor =
        [(100, 42)] ∧
      (trace_wait_start ⟨[(5, 0)], [(100, 42)]⟩ 6 0 1).pid_to_cursor = [(100, 42)] := by
  obtain ⟨h1, -, h3, h4⟩ :=
    cursor_id_resolution ⟨[(5, 0)], [(100, 42)]⟩ 100 5 5000
      ⟨5000, 100, 5, 42, 0, 5000, List.replicate 64 0⟩ (by decide)
  exact ⟨by decide, h1, h3, h4 6 0 1⟩

/-- C6: the formatted line is `WAIT #<cursor_id>: nam=<wait_name>
ela=<duration_us> us tim=<timestamp>` (the wait name between single quotes)
when `cursor_id > 0` and `WAIT [PID <pid>]: ...` otherwise, the wait name comes from the static table,
and every code not in the table renders as `Unknown:0x` followed by exactly 8
zero-padded lowercase hex digits. -/
theorem print_wait_event_format (e : WaitEventT) (timestamp : String) :
    print_wait_event e timestamp =
        (if e.cursor_id > 0 then "WAIT #" ++ toString e.cursor_id
         else "WAIT [PID " ++ toString e.pid ++ "]") ++
          ": nam='" ++ get_wait_event_name e.wait_event_info ++
          "' ela=" ++ toString (formatDurationUs e.duration_ns) ++
          " us tim=" ++ timestamp ∧
      ∀ info : Nat, info < 2 ^ 32 → alistLookup WAIT_EVENT_NAMES info = none →
        get_wait_event_name info = "Unknown:0x" ++ format08x info ∧
          (format08x info).length = 8 ∧
          ∀ c ∈ (format08x info).data, c ∈ "0123456789abcdef".data := by
  constructor
  · unfold print_wait_event
    by_cases hc : e.cursor_id > 0 <;> simp [hc, String.append_assoc]
  · intro info hlt hnone
    exact ⟨by simp [get_wait_event_name, hnone], format08x_length info hlt,
      format08x_chars info⟩

/-- Witness for C6: a concrete event with an unknown code and a 2500 ns
duration renders with the PID form, `Unknown:0x00000000` and `ela=2`. -/
theorem print_wait_event_format_witness :
    print_wait_event ⟨1, 2, 3, 0, 0, 2500, List.replicate 64 0⟩ "T" =
        "WAIT [PID 2]: nam='Unknown:0x00000000' ela=2 us tim=T" ∧
      (0 : Nat) < 2 ^ 32 ∧
      alistLookup WAIT_EVENT_NAMES 0 = none := by
  refine ⟨?_, by decide, by decide⟩
  rw [(print_wait_event_format ⟨1, 2, 3, 0, 0, 2500, List.replicate 64 0⟩ "T").1]
  decide

/-- C7: `wait_starts` holds at most one entry per tid, a second wait-start for
the same tid overwrites the first (the two consecutive starts leave exactly
the state a single second start would), and the subsequent wait-end computes
its duration from the second start time only. -/
theorem pending_wait_overwrite (st : BpfState)
    (tid i1 i2 ts1 ts2 pid end_ts : Nat) :
    trace_wait_start (trace_wait_start st tid i1 ts1) tid i2 ts2 =
        trace_wait_start st tid i2 ts2 ∧
      (∀ e, (trace_wait_end (trace_wait_start (trace_wait_start st tid i1 ts1) tid i2 ts2)
            pid tid end_ts).2 = some e →
        e.duration_ns = u64sub end_ts ts2) ∧
      ((∀ k, alistCountKey st.wait_starts k ≤ 1) →
        (∀ k, alistCountKey (trace_wait_start st tid i1 ts1).wait_starts k ≤ 1) ∧
          ∀ k, alistCountKey (trace_wait_end st pid tid end_ts).1.wait_starts k ≤ 1) := by
  have hcollapse : trace_wait_start (trace_wait_start st tid i1 ts1) tid i2 ts2 =
      trace_wait_start st tid i2 ts2 := by
    unfold trace_wait_start
    simp [alistUpdate_update_self]
  refine ⟨hcollapse, ?_, ?_⟩
  · intro e he
    rw [hcollapse] at he
    obtain ⟨start_ts, hs, -, hev⟩ :=
      trace_wait_end_emit (trace_wait_start st tid i2 ts2) pid tid end_ts e he
    have : start_ts = ts2 := by
      have := hs.symm.trans
        (alistLookup_update_self st.wait_starts tid ts2)
      exact Option.some.inj this
    rw [hev, this]
  · intro hwf
    constructor
    · intro k
      exact alistCountKey_update_le st.wait_starts tid k ts1 hwf
    · intro k
      unfold trace_wait_end
      cases hl : alistLookup st.wait_starts tid with
      | none => exact hwf k
      | some start_ts =>
          by_cases hd : u64sub end_ts start_ts < 1000 <;>
            simpa [hd] using
              Nat.le_trans (alistCountKey_delete_le st.wait_starts tid k) (hwf k)

/-- Witness for C7: two starts on tid 5 at times 10 and 2000, ended at 5000,
yield a 3000 ns duration computed from the second start. -/
theorem pending_wait_overwrite_witness :
    trace_wait_start (trace_wait_start ⟨[], []⟩ 5 0 10) 5 0 2000 =
        trace_wait_start ⟨[], []⟩ 5 0 2000 ∧
      (trace_wait_end (trace_wait_start (trace_wait_start ⟨[], []⟩ 5 0 10) 5 0 2000)
          9 5 5000).2 = some ⟨5000, 9, 5, 0, 0, 3000, List.replicate 64 0⟩ ∧
      (⟨5000, 9, 5, 0, 0, 3000, List.replicate 64 0⟩ : WaitEventT).duration_ns =
        u64sub 5000 2000 ∧
      alistCountKey (trace_wait_start (⟨[], []⟩ : BpfState) 5 0 10).wait_starts 5 ≤ 1 := by
  obtain ⟨h1, h2, h3⟩ := pending_wait_overwrite ⟨[], []⟩ 5 0 0 10 2000 9 5000
  refine ⟨h1, by decide, ?_, ?_⟩
  · exact h2 ⟨5000, 9, 5, 0, 0, 3000, List.replicate 64 0⟩ (by decide)
  · exact (h3 (fun k => by simp [alistCountKey])).1 5

/-- C8: a wait-end with no pending entry for the tid produces no event and
returns the state unchanged. -/
theorem wait_end_no_pending (st : BpfState) (pid tid end_ts : Nat)
    (h : alistLookup st.wait_starts tid = none) :
    trace_wait_end st pid tid end_ts = (st, none) := by
  unfold trace_wait_end
  rw [h]

/-- Witness for C8 at the empty state. -/
theorem wait_end_no_pending_witness :
    alistLookup (([] : List (Nat × Nat))) 2 = none ∧
      trace_wait_end ⟨[], []⟩ 1 2 3 = (⟨[], []⟩, none) :=
  ⟨by decide, wait_end_no_pending ⟨[], []⟩ 1 2 3 (by decide)⟩

/-- C9 counterexample: a wait of exactly 1000 ns is submitted, and 1000 is not
strictly greater than the 1000 ns threshold. -/
theorem emitted_at_exact_threshold :
    ((trace_wait_end ⟨[(5, 0)], []⟩ 100 5 1000).2).map WaitEventT.duration_ns =
        some 1000 ∧
      ¬ (1000 : Nat) > 1000 := by
  exact ⟨by decide, by decide⟩

/-- C9 (amended): every event submitted by `trace_wait_end` has
`duration_ns ≥ 1000` — at least, not strictly above, the noise floor — and
hence a strictly positive duration. -/
theorem emitted_duration_ge_noise_floor (st : BpfState) (pid tid end_ts : Nat)
    (e : WaitEventT) (h : (trace_wait_end st pid tid end_ts).2 = some e) :
    1000 ≤ e.duration_ns ∧ 0 < e.duration_ns := by
  obtain ⟨start_ts, -, hd, he⟩ := trace_wait_end_emit st pid tid end_ts e h
  rw [he]
  refine ⟨hd, ?_⟩
  show 0 < u64sub end_ts start_ts
  omega

/-- Witness for C9 (amended) at a concrete 5000 ns wait. -/
theorem emitted_duration_ge_noise_floor_witness :
    (trace_wait_end ⟨[(5, 0)], []⟩ 100 5 5000).2 =
        some ⟨5000, 100, 5, 0, 0, 5000, List.replicate 64 0⟩ ∧
      1000 ≤ (⟨5000, 100, 5, 0, 0, 5000, List.replicate 64 0⟩ : WaitEventT).duration_ns ∧
      0 < (⟨5000, 100, 5, 0, 0, 5000, List.replicate 64 0⟩ : WaitEventT).duration_ns :=
  ⟨by decide,
    emitted_duration_ge_noise_floor ⟨[(5, 0)], []⟩ 100 5 5000
      ⟨5000, 100, 5, 0, 0, 5000, List.replicate 64 0⟩ (by decide)⟩

/-- C10: if the SQL trace file does not exist at session start the
orchestrator stops with exit code 1 (non-zero) before any later phase;
otherwise, when no output path is given, the output path defaults to the SQL
trace path with `".complete"` appended (and the wait-log path is computed from
the pid). -/
theorem orchestrate_init_spec (trace_file : String) (pid : Nat) :
    orchestrate_init false trace_file none pid = Except.error 1 ∧
      (1 : Nat) ≠ 0 ∧
      orchestrate_init true trace_file none pid =
        Except.ok (trace_file ++ ".complete", wait_log_path pid) := by
  refine ⟨rfl, by decide, ?_⟩
  simp [orchestrate_init, pyOrDefault]

end PgTrace
